import Mathlib

/-!
Verification development for `helsinki_vrp_portfolio.py`, a multi-vehicle
capacitated VRP with time windows over Helsinki-area nodes.

The script:
* reads node data (coordinates, demands, time windows) from a CSV file;
* builds a distance matrix from the haversine formula and a travel-time matrix
  as `int(round(d * 2))` minutes (30 km/h), with zero self-arcs;
* configures an OR-Tools routing model: a Capacity dimension with zero slack and
  per-vehicle capacities `[15, 15, 15]` whose start cumul is fixed to zero, a
  Time dimension with slack 30 and horizon 240, per-node time-window ranges on
  the Time cumul variables, depot start range `[0, 240]`;
* solves and, if a solution is found, extracts per vehicle the ordered node
  list, per-node Time cumul values and the total load, skipping vehicles whose
  route is just depot → depot; otherwise prints "No solution found." and exits.

Modelling choices:
* Python floats are idealised as real numbers in the matrix layer; Python's
  banker's rounding (`round`) is modelled exactly by `pyRound`.
* The solve step is delegated to the external OR-Tools library.  A solution the
  solver returns as feasible is modelled as a `Solution` satisfying `Feasible`,
  which records exactly the constraints the script registers on the model, in
  the single-shared-depot view (each route is depot, customers…, depot).
-/

namespace HelsinkiVRP

/-- Source constant `depot_index = 0` (src line 22). -/
def depot_index : ℕ := 0

/-- Source constant `num_vehicles = 3` (src line 24). -/
def num_vehicles : ℕ := 3

/-- Source constant `vehicle_capacities = [15, 15, 15]` (src line 25). -/
def vehicle_capacities : List ℤ := [15, 15, 15]

/-- Source constant `max_route_duration = 240` minutes (src line 81). -/
def max_route_duration : ℤ := 240

/-- The slack allowed on the Time dimension: `30, # waiting allowed`
(src line 84). -/
def time_slack : ℤ := 30

/-! ## Matrix layer (src lines 30–49)

Python floats idealised as real numbers. -/

/-- Python's `math.radians`: degrees to radians. -/
noncomputable def radians (x : ℝ) : ℝ := x * (Real.pi / 180)

/-- The haversine great-circle distance (src lines 30–37), `R = 6371` km,
`c = 2 * asin(sqrt(a))`, result `R * c`. -/
noncomputable def haversine (lat1 lon1 lat2 lon2 : ℝ) : ℝ :=
  let l1 := radians lat1
  let o1 := radians lon1
  let l2 := radians lat2
  let o2 := radians lon2
  let dlat := l2 - l1
  let dlon := o2 - o1
  let a := Real.sin (dlat / 2) ^ 2 +
    Real.cos l1 * Real.cos l2 * Real.sin (dlon / 2) ^ 2
  6371 * (2 * Real.arcsin (Real.sqrt a))

/-- Python 3's `round` on a real argument: round half to even. -/
noncomputable def pyRound (x : ℝ) : ℤ :=
  if Int.fract x = 1 / 2 then (if Even ⌊x⌋ then ⌊x⌋ else ⌊x⌋ + 1) else round x

/-- Matrix `dist_matrix` (src lines 40–48): initialised to `0`, the `i == j` entries
are skipped by the loop, the rest are haversine distances. -/
noncomputable def dist_matrix (lats lons : ℕ → ℝ) (i j : ℕ) : ℝ :=
  if i = j then 0 else haversine (lats i) (lons i) (lats j) (lons j)

/-- Matrix `time_matrix` (src lines 41–49): zero on the diagonal, otherwise
`int(round(d * 2))` minutes where `d` is the haversine distance. -/
noncomputable def time_matrix (lats lons : ℕ → ℝ) (i j : ℕ) : ℤ :=
  if i = j then 0 else pyRound (dist_matrix lats lons i j * 2)

lemma sin_half_sub_sq (x y : ℝ) :
    Real.sin ((x - y) / 2) ^ 2 = Real.sin ((y - x) / 2) ^ 2 := by
  rw [show (x - y) / 2 = -((y - x) / 2) by ring, Real.sin_neg, neg_sq]

lemma haversine_symm (lat1 lon1 lat2 lon2 : ℝ) :
    haversine lat1 lon1 lat2 lon2 = haversine lat2 lon2 lat1 lon1 := by
  simp only [haversine]
  rw [sin_half_sub_sq (radians lat2) (radians lat1),
    sin_half_sub_sq (radians lon2) (radians lon1),
    mul_comm (Real.cos (radians lat1)) (Real.cos (radians lat2))]

lemma haversine_nonneg (lat1 lon1 lat2 lon2 : ℝ) :
    0 ≤ haversine lat1 lon1 lat2 lon2 := by
  simp only [haversine]
  refine mul_nonneg (by norm_num) (mul_nonneg (by norm_num) ?_)
  exact Real.arcsin_nonneg.mpr (Real.sqrt_nonneg _)

lemma pyRound_nonneg (x : ℝ) (hx : 0 ≤ x) : 0 ≤ pyRound x := by
  have hfl : (0 : ℤ) ≤ ⌊x⌋ := Int.le_floor.mpr (by exact_mod_cast hx)
  unfold pyRound
  split
  · split
    · exact hfl
    · omega
  · rw [round_eq]
    refine Int.le_floor.mpr ?_
    push_cast
    linarith

lemma dist_matrix_symm (lats lons : ℕ → ℝ) (i j : ℕ) :
    dist_matrix lats lons i j = dist_matrix lats lons j i := by
  unfold dist_matrix
  rcases eq_or_ne i j with h | h
  · simp [h]
  · rw [if_neg h, if_neg (Ne.symm h), haversine_symm]

lemma dist_matrix_nonneg (lats lons : ℕ → ℝ) (i j : ℕ) :
    0 ≤ dist_matrix lats lons i j := by
  unfold dist_matrix
  split
  · exact le_refl 0
  · exact haversine_nonneg _ _ _ _

/-- C7: for every node index, the self-arc entries of the constructed matrices
are zero: `dist_matrix[i][i] = 0` and `time_matrix[i][i] = 0`. -/
theorem self_arcs_zero (lats lons : ℕ → ℝ) (i : ℕ) :
    dist_matrix lats lons i i = 0 ∧ time_matrix lats lons i i = 0 :=
  ⟨if_pos rfl, if_pos rfl⟩

/-- C10: the constructed matrices are symmetric and non-negative, because the
haversine distance is symmetric in its two points and the time entry is the
rounding of twice the distance. -/
theorem matrices_symmetric_nonneg (lats lons : ℕ → ℝ) (i j : ℕ) :
    dist_matrix lats lons i j = dist_matrix lats lons j i ∧
    0 ≤ dist_matrix lats lons i j ∧
    time_matrix lats lons i j = time_matrix lats lons j i ∧
    0 ≤ time_matrix lats lons i j := by
  refine ⟨dist_matrix_symm lats lons i j, dist_matrix_nonneg lats lons i j, ?_, ?_⟩
  · unfold time_matrix
    rcases eq_or_ne i j with h | h
    · simp [h]
    · rw [if_neg h, if_neg (Ne.symm h), dist_matrix_symm]
  · unfold time_matrix
    split
    · exact le_refl 0
    · exact pyRound_nonneg _ (mul_nonneg (dist_matrix_nonneg _ _ _ _) (by norm_num))

/-! ## Solver layer (src lines 13–25, 54–112)

The data read from `helsinki_vrp.csv` and the `time_matrix` values fed to the
solver through `time_callback` are parameters of the model. -/

/-- The problem data the solver part of the script consumes: the number of
nodes (`num_nodes = len(cities)`, src line 21), the demand list, the time
windows `(tw_start, tw_end)` (src lines 18–19), and the computed travel-time
matrix as delivered to the solver by `time_callback` (src lines 57–60). -/
structure Instance where
  numNodes : ℕ
  demands : ℕ → ℤ
  twStart : ℕ → ℤ
  twEnd : ℕ → ℤ
  timeMat : ℕ → ℕ → ℤ

/-- A solver assignment in the single-shared-depot view: per vehicle, the
ordered list of customers it visits (no depot) and the Time-dimension
cumulative values along depot, customers…, depot (length = customers + 2). -/
structure Solution where
  routes : ℕ → List ℕ
  times : ℕ → List ℤ

/-- The nodes visited by the extraction `while` loop for vehicle `v`
(src lines 127–134): the start depot followed by the customers. -/
def loopNodes (sol : Solution) (v : ℕ) : List ℕ := depot_index :: sol.routes v

/-- List `route_nodes` of the extraction (src lines 121–141): the loop nodes plus
the final depot. -/
def route_nodes (sol : Solution) (v : ℕ) : List ℕ := loopNodes sol v ++ [depot_index]

/-- The Capacity-dimension cumulative value after `k` visits of vehicle `v`:
with zero slack and start cumul fixed to zero
(`AddDimensionWithVehicleCapacity(demand_callback_index, 0, …, True, …)`,
src lines 72–78), the cumul at position `k` is the sum of the demands of the
first `k` visited nodes. -/
def loadAt (inst : Instance) (sol : Solution) (v k : ℕ) : ℤ :=
  (((loopNodes sol v).take k).map inst.demands).sum

/-- Accumulator `total_load` of the extraction (src lines 125–133): the sum of the demands
of all nodes the `while` loop visits. -/
def total_load (inst : Instance) (sol : Solution) (v : ℕ) : ℤ :=
  ((loopNodes sol v).map inst.demands).sum

/-- All customers assigned to some vehicle, in vehicle order
(`for v in range(num_vehicles)`, src line 121). -/
def allCustomers (sol : Solution) : List ℕ :=
  (List.range num_vehicles).flatMap sol.routes

/-- A solution the solver returns as feasible.  The conjuncts record exactly
the constraints the script registers on the OR-Tools model:
1. routes visit valid non-depot nodes (the model's node set, src line 54);
2. every non-depot node is visited exactly once across vehicles (the routing
   model has no disjunctions, so no node may be dropped and the `NextVar`
   paths partition the nodes, src lines 54–55);
3. Capacity dimension: every cumul lies in `[0, capacity(v)]`
   (`AddDimensionWithVehicleCapacity`, slack 0, capacities `[15,15,15]`,
   start cumul fixed to zero, src lines 72–78);
4. the Time cumul list covers every visit, both depot ends included;
5. Time dimension horizon: every Time cumul lies in `[0, 240]`
   (`AddDimension(transit, 30, 240, False, "Time")`, src lines 82–88;
   the depot start range `[0, 240]` of src lines 98–100 is the same bound);
6. Time propagation: along consecutive visits the cumul grows by the arc
   transit plus a slack in `[0, 30]` (src lines 82–88 with `time_callback`);
7. time windows: the Time cumul at each visited customer lies in its declared
   `[tw_start, tw_end]` (`SetRange`, src lines 93–95). -/
def Feasible (inst : Instance) (sol : Solution) : Prop :=
  (∀ v < num_vehicles, ∀ c ∈ sol.routes v, 1 ≤ c ∧ c < inst.numNodes) ∧
  (∀ c < inst.numNodes, 1 ≤ c → (allCustomers sol).count c = 1) ∧
  (∀ v < num_vehicles, ∀ k ≤ (loopNodes sol v).length,
    0 ≤ loadAt inst sol v k ∧ loadAt inst sol v k ≤ vehicle_capacities.getD v 0) ∧
  (∀ v < num_vehicles, (sol.times v).length = (route_nodes sol v).length) ∧
  (∀ v < num_vehicles, ∀ t ∈ sol.times v, 0 ≤ t ∧ t ≤ max_route_duration) ∧
  (∀ v < num_vehicles, ∀ k < (sol.routes v).length + 1,
    inst.timeMat ((route_nodes sol v).getD k 0) ((route_nodes sol v).getD (k + 1) 0) ≤
      (sol.times v).getD (k + 1) 0 - (sol.times v).getD k 0 ∧
    (sol.times v).getD (k + 1) 0 - (sol.times v).getD k 0 ≤
      inst.timeMat ((route_nodes sol v).getD k 0) ((route_nodes sol v).getD (k + 1) 0) +
        time_slack) ∧
  (∀ v < num_vehicles, ∀ k < (sol.routes v).length,
    inst.twStart ((sol.routes v).getD k 0) ≤ (sol.times v).getD (k + 1) 0 ∧
    (sol.times v).getD (k + 1) 0 ≤ inst.twEnd ((sol.routes v).getD k 0))

instance decidableFeasible (inst : Instance) (sol : Solution) :
    Decidable (Feasible inst sol) := by
  unfold Feasible
  infer_instance

/-! ## Extraction (src lines 117–146) -/

/-- Entry `vehicle_routes[v]` (src lines 143–144): the route node list is kept only
when it is longer than depot → depot. -/
def vehicle_routes (sol : Solution) (v : ℕ) : Option (List ℕ) :=
  if 2 < (route_nodes sol v).length then some (route_nodes sol v) else none

/-- Entry `vehicle_times[v]` (src lines 143–145). -/
def vehicle_times (sol : Solution) (v : ℕ) : Option (List ℤ) :=
  if 2 < (route_nodes sol v).length then some (sol.times v) else none

/-- Entry `vehicle_loads[v]` (src lines 143–146). -/
def vehicle_loads (inst : Instance) (sol : Solution) (v : ℕ) : Option ℤ :=
  if 2 < (route_nodes sol v).length then some (total_load inst sol v) else none

/-- The node list recorded for vehicle `v`, empty when the vehicle is omitted
from `vehicle_routes`. -/
def extractedRoute (sol : Solution) (v : ℕ) : List ℕ :=
  (vehicle_routes sol v).getD []

/-- All node occurrences across the extracted per-vehicle routes. -/
def allExtractedNodes (sol : Solution) : List ℕ :=
  (List.range num_vehicles).flatMap (extractedRoute sol)

/-- The two possible outcomes of a run (src lines 108–146): either the
"No solution found." exit, which carries no route data, or the three
per-vehicle mappings built by the extraction. -/
inductive Output where
  | noSolution : Output
  | solved : (ℕ → Option (List ℕ)) → (ℕ → Option (List ℤ)) → (ℕ → Option ℤ) → Output

/-- The tail of the script (src lines 108–146): `solution` is the value
returned by `routing.SolveWithParameters`; `None` triggers the
"No solution found." exit, otherwise the routes are extracted. -/
def programOutput (inst : Instance) (res : Option Solution) : Output :=
  match res with
  | none => Output.noSolution
  | some sol =>
      Output.solved (vehicle_routes sol) (vehicle_times sol) (vehicle_loads inst sol)

/-! ## Model construction (src lines 54–106) -/

/-- The constraint data the script registers on the routing model. -/
structure RoutingSetup where
  capacities : List ℤ
  capacitySlack : ℤ
  timeSlackMax : ℤ
  timeHorizon : ℤ
  windows : ℕ → ℤ × ℤ
  depotStartRange : ℤ × ℤ

/-- Model construction (src lines 54–106).  It is a total function of the
instance: the script performs no validation of the data it read, and the
time-window ranges are installed verbatim (`SetRange(start, end)`,
src lines 93–95). -/
def buildModel (inst : Instance) : RoutingSetup :=
  { capacities := vehicle_capacities
    capacitySlack := 0
    timeSlackMax := time_slack
    timeHorizon := max_route_duration
    windows := fun c => (inst.twStart c, inst.twEnd c)
    depotStartRange := (0, max_route_duration) }

/-! ## Concrete data used by the witnesses -/

/-- A small concrete instance: the depot and one customer with demand 1,
window `[0, 100]`, all off-diagonal travel times 1 minute. -/
def wInst : Instance where
  numNodes := 2
  demands := fun c => if c = 1 then 1 else 0
  twStart := fun _ => 0
  twEnd := fun c => if c = 1 then 100 else 240
  timeMat := fun a b => if a = b then 0 else 1

/-- A feasible assignment for `wInst`: vehicle 0 serves customer 1 at time 1,
vehicles 1 and 2 stay at the depot. -/
def wSol : Solution where
  routes := fun v => if v = 0 then [1] else []
  times := fun v => if v = 0 then [0, 1, 2] else [0, 0]

/-! ## Helper lemmas -/

lemma route_nodes_length (sol : Solution) (v : ℕ) :
    (route_nodes sol v).length = (sol.routes v).length + 2 := by
  simp only [route_nodes, loopNodes, List.length_append, List.length_cons,
    List.length_nil]

lemma loadAt_full (inst : Instance) (sol : Solution) (v : ℕ) :
    loadAt inst sol v (loopNodes sol v).length = total_load inst sol v := by
  simp [loadAt, total_load, List.take_length]

lemma route_nodes_getD_succ (sol : Solution) (v q : ℕ)
    (hq : q < (sol.routes v).length) :
    (route_nodes sol v).getD (q + 1) 0 = (sol.routes v).getD q 0 := by
  have hq2 : q < (sol.routes v ++ [depot_index]).length := by
    simp only [List.length_append, List.length_cons, List.length_nil]
    omega
  rw [route_nodes, loopNodes, List.cons_append, List.getD_cons_succ,
    List.getD_eq_getElem _ _ hq2, List.getElem_append_left hq,
    List.getD_eq_getElem _ _ hq]

lemma count_route_nodes (sol : Solution) (v c : ℕ) (hc : c ≠ depot_index) :
    (route_nodes sol v).count c = (sol.routes v).count c := by
  simp [route_nodes, loopNodes, List.count_append, List.count_cons,
    List.count_singleton, beq_iff_eq, Ne.symm hc]

lemma omitted_routes_nil (sol : Solution) (v : ℕ)
    (h : ¬ 2 < (route_nodes sol v).length) : sol.routes v = [] := by
  have hl := route_nodes_length sol v
  exact List.eq_nil_of_length_eq_zero (by omega)

lemma count_extractedRoute (sol : Solution) (v c : ℕ) (hc : c ≠ depot_index) :
    (extractedRoute sol v).count c = (sol.routes v).count c := by
  unfold extractedRoute vehicle_routes
  split
  · simpa using count_route_nodes sol v c hc
  · rename_i hnot
    rw [omitted_routes_nil sol v hnot]
    simp

/-! ## Claims about feasible solutions -/

/-- C1: for every solution the solver returns as feasible and every route in
it, the sum of the demands of the nodes on that route (the extractor's
`total_load`) is at most the capacity of the vehicle assigned to that route,
and that capacity is 15. -/
theorem routes_respect_capacity (inst : Instance) (sol : Solution)
    (h : Feasible inst sol) (v : ℕ) (hv : v < num_vehicles) :
    total_load inst sol v ≤ vehicle_capacities.getD v 0 ∧
    vehicle_capacities.getD v 0 = 15 := by
  obtain ⟨-, -, hcap, -⟩ := h
  have h1 := (hcap v hv (loopNodes sol v).length le_rfl).2
  rw [loadAt_full] at h1
  refine ⟨h1, ?_⟩
  have hv3 : v < 3 := hv
  interval_cases v <;> rfl

theorem routes_respect_capacity_w :
    total_load wInst wSol 0 ≤ vehicle_capacities.getD 0 0 ∧
    vehicle_capacities.getD 0 0 = 15 :=
  routes_respect_capacity wInst wSol (by decide) 0 (by decide)

/-- C2: for every solution the solver returns as feasible, the Time-dimension
cumulative value realized at every visited non-depot node (positions
1 … route-length of the extracted `route_nodes`, which are exactly the
non-depot visits) lies within that node's declared `[tw_start, tw_end]`
window. -/
theorem times_within_windows (inst : Instance) (sol : Solution)
    (h : Feasible inst sol) (v p : ℕ) (hv : v < num_vehicles)
    (hp1 : 1 ≤ p) (hp2 : p ≤ (sol.routes v).length) :
    (route_nodes sol v).getD p 0 ≠ depot_index ∧
    inst.twStart ((route_nodes sol v).getD p 0) ≤ (sol.times v).getD p 0 ∧
    (sol.times v).getD p 0 ≤ inst.twEnd ((route_nodes sol v).getD p 0) := by
  obtain ⟨hmem, -, -, -, -, -, hwin⟩ := h
  obtain ⟨q, rfl⟩ : ∃ q, p = q + 1 := ⟨p - 1, by omega⟩
  have hq : q < (sol.routes v).length := by omega
  have hgd := route_nodes_getD_succ sol v q hq
  have hcmem : (sol.routes v).getD q 0 ∈ sol.routes v := by
    rw [List.getD_eq_getElem _ _ hq]
    exact List.getElem_mem _
  have h1 := (hmem v hv _ hcmem).1
  have hw := hwin v hv q hq
  refine ⟨?_, ?_, ?_⟩
  · rw [hgd]
    intro hc0
    rw [hc0] at h1
    exact absurd h1 (by decide)
  · rw [hgd]
    exact hw.1
  · rw [hgd]
    exact hw.2

theorem times_within_windows_w :
    (route_nodes wSol 0).getD 1 0 ≠ depot_index ∧
    wInst.twStart ((route_nodes wSol 0).getD 1 0) ≤ (wSol.times 0).getD 1 0 ∧
    (wSol.times 0).getD 1 0 ≤ wInst.twEnd ((route_nodes wSol 0).getD 1 0) :=
  times_within_windows wInst wSol (by decide) 0 1 (by decide) (by decide) (by decide)

/-- C3: for every solution the solver returns as feasible, every non-depot
node occurs exactly once across the extracted per-vehicle routes (the script
registers no disjunctions, so there is no unassignable list and no node may
be dropped; vehicles omitted from the output have empty routes and contain no
non-depot node). -/
theorem customers_exactly_once (inst : Instance) (sol : Solution)
    (h : Feasible inst sol) (c : ℕ) (hc1 : 1 ≤ c) (hc2 : c < inst.numNodes) :
    (allExtractedNodes sol).count c = 1 := by
  have hcd : c ≠ depot_index := by
    intro hc0
    rw [hc0] at hc1
    exact absurd hc1 (by decide)
  have hone := h.2.1 c hc2 hc1
  have hmaps : (List.range num_vehicles).map (List.count c ∘ extractedRoute sol)
      = (List.range num_vehicles).map (List.count c ∘ sol.routes) := by
    apply List.map_congr_left
    intro v _
    simp only [Function.comp]
    exact count_extractedRoute sol v c hcd
  have hgoal : (allExtractedNodes sol).count c
      = (allCustomers sol).count c := by
    rw [allExtractedNodes, List.count_flatMap, hmaps, allCustomers,
      List.count_flatMap]
  rw [hgoal]
  exact hone

theorem customers_exactly_once_w : (allExtractedNodes wSol).count 1 = 1 :=
  customers_exactly_once wInst wSol (by decide) 1 (by decide) (by decide)

/-- C9: for every solution the solver returns as feasible, the Time cumul at
the route's final depot visit (the last entry of the route's time list) is at
most the maximum route duration of 240, and the depot start time (the first
entry) lies in `[0, 240]`. -/
theorem route_duration_bound (inst : Instance) (sol : Solution)
    (h : Feasible inst sol) (v : ℕ) (hv : v < num_vehicles) :
    (sol.times v).getD ((sol.times v).length - 1) 0 ≤ max_route_duration ∧
    0 ≤ (sol.times v).getD 0 0 ∧
    (sol.times v).getD 0 0 ≤ max_route_duration := by
  obtain ⟨-, -, -, hlen, hbd, -⟩ := h
  have hl := hlen v hv
  have hrn := route_nodes_length sol v
  have hpos : 0 < (sol.times v).length := by omega
  have hltL : (sol.times v).length - 1 < (sol.times v).length := by omega
  have hmem0 : (sol.times v).getD 0 0 ∈ sol.times v := by
    rw [List.getD_eq_getElem _ _ hpos]
    exact List.getElem_mem _
  have hmemL : (sol.times v).getD ((sol.times v).length - 1) 0 ∈ sol.times v := by
    rw [List.getD_eq_getElem _ _ hltL]
    exact List.getElem_mem _
  exact ⟨(hbd v hv _ hmemL).2, (hbd v hv _ hmem0).1, (hbd v hv _ hmem0).2⟩

theorem route_duration_bound_w :
    (wSol.times 0).getD ((wSol.times 0).length - 1) 0 ≤ max_route_duration ∧
    0 ≤ (wSol.times 0).getD 0 0 ∧
    (wSol.times 0).getD 0 0 ≤ max_route_duration :=
  route_duration_bound wInst wSol (by decide) 0 (by decide)

/-! ## Program outcome claims -/

/-- The route data an outcome carries: the no-solution outcome carries none. -/
def Output.routeData :
    Output → Option ((ℕ → Option (List ℕ)) × (ℕ → Option (List ℤ)) × (ℕ → Option ℤ))
  | Output.noSolution => none
  | Output.solved r t l => some (r, t, l)

/-- C4: when the solver produces no solution, the program's outcome is the
defined no-solution output (the `print("No solution found."); exit()` branch,
src lines 110–112), and that outcome carries no partial route data — it is a
defined output, not a crash. -/
theorem no_solution_defined_output (inst : Instance) :
    programOutput inst none = Output.noSolution ∧
    (programOutput inst none).routeData = none :=
  ⟨rfl, rfl⟩

/-- C5: the extractor, given a feasible solution, keeps exactly the vehicles
whose route is longer than depot → depot; for a kept vehicle it records the
ordered node list (starting and ending at the depot), the Time cumul at every
visited node (both depot ends included — the time list covers the whole node
list), and the total realized load; an omitted vehicle appears in none of the
three output mappings. -/
theorem extractor_contract (inst : Instance) (sol : Solution)
    (h : Feasible inst sol) (v : ℕ) (hv : v < num_vehicles) :
    (2 < (route_nodes sol v).length →
      vehicle_routes sol v = some (route_nodes sol v) ∧
      (route_nodes sol v).head? = some depot_index ∧
      (route_nodes sol v).getLast? = some depot_index ∧
      vehicle_times sol v = some (sol.times v) ∧
      (sol.times v).length = (route_nodes sol v).length ∧
      vehicle_loads inst sol v = some (total_load inst sol v)) ∧
    (¬ 2 < (route_nodes sol v).length →
      vehicle_routes sol v = none ∧ vehicle_times sol v = none ∧
      vehicle_loads inst sol v = none) := by
  obtain ⟨-, -, -, hlen, -⟩ := h
  constructor
  · intro hgt
    refine ⟨if_pos hgt, ?_, ?_, if_pos hgt, hlen v hv, if_pos hgt⟩
    · simp [route_nodes, loopNodes]
    · rw [route_nodes, List.getLast?_concat]
  · intro hle
    exact ⟨if_neg hle, if_neg hle, if_neg hle⟩

theorem extractor_contract_w :
    vehicle_routes wSol 0 = some [0, 1, 0] ∧
    vehicle_times wSol 0 = some [0, 1, 2] ∧
    vehicle_loads wInst wSol 0 = some 1 ∧
    vehicle_routes wSol 1 = none ∧
    vehicle_times wSol 1 = none ∧
    vehicle_loads wInst wSol 1 = none := by
  have h0 := (extractor_contract wInst wSol (by decide) 0 (by decide)).1 (by decide)
  have h1 := (extractor_contract wInst wSol (by decide) 1 (by decide)).2 (by decide)
  refine ⟨?_, ?_, ?_, h1.1, h1.2.1, h1.2.2⟩
  · rw [h0.1]
    decide
  · rw [h0.2.2.2.1]
    decide
  · rw [h0.2.2.2.2.2]
    decide

/-! ## Input validation (C6) -/

/-- A malformed instance: customer 1's time window `[5, 3]` has
earliest > latest. -/
def badInst : Instance where
  numNodes := 2
  demands := fun c => if c = 1 then 1 else 0
  twStart := fun c => if c = 1 then 5 else 0
  twEnd := fun c => if c = 1 then 3 else 240
  timeMat := fun a b => if a = b then 0 else 1

/-- C6 counterexample: on a concrete malformed instance (customer 1's window
is `[5, 3]`, earliest > latest) the script surfaces no error at construction:
the model is built with the defective window installed verbatim into the
solver's constraint set, and the failing run ends in the ordinary
"No solution found." output — the program has no InvalidInstance outcome at
all, so the defect is not detected before search. -/
theorem no_validation_cex :
    (buildModel badInst).windows 1 = (5, 3) ∧
    programOutput badInst none = Output.noSolution ∧
    (programOutput badInst none).routeData = none := by
  refine ⟨?_, rfl, rfl⟩
  decide

/-- C6 amended: the script performs no instance validation — a time window
with earliest > latest is installed verbatim into the solver model and search
is attempted; such a window makes every solution infeasible, so the run can
only end in the "No solution found." outcome instead of a fatal
InvalidInstance error at construction. -/
theorem invalid_window_never_feasible (inst : Instance) (c : ℕ)
    (hc1 : 1 ≤ c) (hc2 : c < inst.numNodes)
    (hbad : inst.twEnd c < inst.twStart c) :
    (buildModel inst).windows c = (inst.twStart c, inst.twEnd c) ∧
    ∀ sol : Solution, ¬ Feasible inst sol := by
  refine ⟨rfl, ?_⟩
  intro sol hf
  obtain ⟨-, hcount, -, -, -, -, hwin⟩ := hf
  have hpos : 0 < (allCustomers sol).count c := by
    rw [hcount c hc2 hc1]
    exact Nat.one_pos
  have hmem : c ∈ (List.range num_vehicles).flatMap sol.routes :=
    List.count_pos_iff.mp hpos
  obtain ⟨v, hvr, hcv⟩ := List.mem_flatMap.mp hmem
  have hv : v < num_vehicles := List.mem_range.mp hvr
  obtain ⟨k, hk, hkc⟩ := List.mem_iff_getElem.mp hcv
  have hgd : (sol.routes v).getD k 0 = c := by
    rw [List.getD_eq_getElem _ _ hk]
    exact hkc
  have hw := hwin v hv k hk
  rw [hgd] at hw
  omega

theorem invalid_window_never_feasible_w :
    (buildModel badInst).windows 1 = (badInst.twStart 1, badInst.twEnd 1) ∧
    ¬ Feasible badInst wSol := by
  have h := invalid_window_never_feasible badInst 1 (by decide) (by decide) (by decide)
  exact ⟨h.1, h.2 wSol⟩

/-! ## Construction Heuristic (C8)

Modelled from the spec: the first-solution construction itself is delegated to
the external OR-Tools library (`params.first_solution_strategy`, src line 104)
and its code is not in the repository; §4.2 of the spec defines the reference
Construction Heuristic: a cheapest-feasible-insertion sweep over per-vehicle
partial routes that starts and ends at the depot, only ever making moves the
Dimension Tracker accepts, tie-broken by lowest node index. -/

/-- Modelled from the spec: the lower time bound of a node (§3: the depot's
window is `[0, max-route-duration]`). -/
def twLo (inst : Instance) (c : ℕ) : ℤ :=
  if c = depot_index then 0 else inst.twStart c

/-- Modelled from the spec: the upper time bound of a node (§3). -/
def twHi (inst : Instance) (c : ℕ) : ℤ :=
  if c = depot_index then max_route_duration else inst.twEnd c

/-- Modelled from the spec: the Dimension Tracker's bound check for the
Capacity dimension (§4.1) — fold the demands along the route, requiring each
cumulative value to stay within `[0, cap]` (zero slack). -/
def capOk (cap : ℤ) : ℤ → List ℤ → Bool
  | _, [] => true
  | acc, d :: rest =>
      let acc2 := acc + d
      decide (0 ≤ acc2) && decide (acc2 ≤ cap) && capOk cap acc2 rest

/-- Modelled from the spec: the Dimension Tracker's evaluation of the Time
dimension (§4.1) — arrive at `t + transit`, wait up to the node's lower bound
(consuming at most the allowed slack of 30), fail when the node's upper bound
or the 240 horizon is exceeded. -/
def timeOk (inst : Instance) : ℕ → ℤ → List ℕ → Bool
  | _, _, [] => true
  | prev, t, b :: rest =>
      let arr := t + inst.timeMat prev b
      let dep := max arr (twLo inst b)
      decide (dep - arr ≤ time_slack) && decide (dep ≤ twHi inst b) &&
        decide (dep ≤ max_route_duration) && timeOk inst b dep rest

/-- Modelled from the spec: a candidate route (customer list) is feasible when
both dimensions accept it (§4.1–§4.2). -/
def routeFeasible (inst : Instance) (cap : ℤ) (r : List ℕ) : Bool :=
  capOk cap 0 ((depot_index :: r).map inst.demands) &&
    timeOk inst depot_index 0 (r ++ [depot_index])

/-- Insert customer `c` at position `p` of route `r`. -/
def insertAt (r : List ℕ) (p c : ℕ) : List ℕ :=
  r.take p ++ c :: r.drop p

/-- The arc cost of a visit sequence starting from `prev`. -/
def arcSum (inst : Instance) : ℕ → List ℕ → ℤ
  | _, [] => 0
  | prev, b :: rest => inst.timeMat prev b + arcSum inst b rest

/-- The raw arc cost of a route: the transit evaluator is also the arc cost
evaluator (`SetArcCostEvaluatorOfAllVehicles`, src lines 62–63). -/
def routeCost (inst : Instance) (r : List ℕ) : ℤ :=
  arcSum inst depot_index (r ++ [depot_index])

/-- Modelled from the spec: all feasible insertions `(marginal cost, node,
vehicle, position)` of yet-unassigned nodes (§4.2), enumerated in increasing
node, vehicle and position order. -/
def candidates (inst : Instance) (routes : List (List ℕ)) (unassigned : List ℕ) :
    List (ℤ × ℕ × ℕ × ℕ) :=
  unassigned.flatMap fun c =>
    (List.range routes.length).flatMap fun v =>
      (List.range ((routes.getD v []).length + 1)).filterMap fun p =>
        let r := routes.getD v []
        let r2 := insertAt r p c
        if routeFeasible inst (vehicle_capacities.getD v 0) r2 then
          some (routeCost inst r2 - routeCost inst r, c, v, p)
        else none

/-- Lexicographic comparison of candidates: lowest marginal cost first, then
lowest node index (§4.2's tie-break), then vehicle and position. -/
def candLt (x y : ℤ × ℕ × ℕ × ℕ) : Bool :=
  decide (x.1 < y.1) ||
    (x.1 == y.1 &&
      (decide (x.2.1 < y.2.1) ||
        (x.2.1 == y.2.1 &&
          (decide (x.2.2.1 < y.2.2.1) ||
            (x.2.2.1 == y.2.2.1 && decide (x.2.2.2 < y.2.2.2))))))

/-- The best candidate: the earliest minimum under `candLt`. -/
def pickBest : List (ℤ × ℕ × ℕ × ℕ) → Option (ℤ × ℕ × ℕ × ℕ)
  | [] => none
  | x :: rest =>
      match pickBest rest with
      | none => some x
      | some y => if candLt y x then some y else some x

/-- Modelled from the spec: one sweep step inserts the chosen candidate and
removes its node from the unassigned pool; the sweep stops when no unassigned
node has a feasible insertion point (§4.2). -/
def constructAux (inst : Instance) :
    ℕ → List (List ℕ) → List ℕ → List (List ℕ) × List ℕ
  | 0, routes, unassigned => (routes, unassigned)
  | Nat.succ fuel, routes, unassigned =>
      match pickBest (candidates inst routes unassigned) with
      | none => (routes, unassigned)
      | some (_, c, v, p) =>
          constructAux inst fuel (routes.set v (insertAt (routes.getD v []) p c))
            (unassigned.erase c)

/-- Modelled from the spec: the Construction Heuristic (§4.2) — start from
empty per-vehicle routes and the non-depot nodes unassigned, and repeatedly
perform the cheapest feasible insertion; returns the routes and the nodes
left unassigned. -/
def construct (inst : Instance) : List (List ℕ) × List ℕ :=
  constructAux inst inst.numNodes (List.replicate num_vehicles [])
    ((List.range inst.numNodes).drop 1)

/-- C8: the Construction Heuristic is deterministic — two runs on the same
Problem Instance (the same node count, demands, windows and travel times)
produce identical assignments; the heuristic consumes no randomness and its
tie-breaks are fixed. -/
theorem construction_deterministic (i1 i2 : Instance)
    (hn : i1.numNodes = i2.numNodes) (hd : i1.demands = i2.demands)
    (hs : i1.twStart = i2.twStart) (he : i1.twEnd = i2.twEnd)
    (hm : i1.timeMat = i2.timeMat) :
    construct i1 = construct i2 := by
  have h : i1 = i2 := by
    cases i1
    cases i2
    simp_all
  rw [h]

/-- A second spelling of the same concrete data as `wInst`. -/
def wInst2 : Instance where
  numNodes := 2
  demands := fun c => if c = 1 then 2 - 1 else 0
  twStart := fun _ => 0
  twEnd := fun c => if c = 1 then 100 else 240
  timeMat := fun a b => if a = b then 0 else 2 - 1

theorem construction_deterministic_w : construct wInst = construct wInst2 :=
  construction_deterministic wInst wInst2 rfl rfl rfl rfl rfl

end HelsinkiVRP
